import Mathlib

/-!
Verification development for the TripTrack trip-registration application
(apps accounts and trips). The definitions below are a shallow embedding of
the data model in trips/models.py and accounts/models.py and of the view
functions in trips/views.py and accounts/views.py. Database tables are
lists of records, querysets are list filters, and each view is a pure
function from a database state (plus request data) to an outcome and a new
database state. Statement-level structure that matters for transaction
claims (which statements run inside a transaction.atomic block) is embedded
as explicit statement lists.
-/

namespace TripTrack

/-- Trip row (trips/models.py, class Trip). Fields not referenced by any
view logic under verification (meetup_time, return_time, pickup_point,
details) are elided. -/
structure Trip where
  id : Nat
  name : String
  date : Int
  capacity : Nat
  is_active : Bool
deriving DecidableEq, Repr

/-- Registration row (trips/models.py, class Registration). The snapshot
fields are full_name, phone, dob, park_choice and email_used. Fields not
referenced by the views under verification (imagica_transaction, price,
gift_code, created_at) are elided. -/
structure Registration where
  id : Nat
  tripId : Nat
  userId : Nat
  full_name : String
  phone : String
  dob : Int
  park_choice : String
  status : String
  email_used : String
  boarded_outbound : Bool
  boarded_return : Bool
deriving DecidableEq, Repr

/-- User row (accounts/models.py, class User). -/
structure User where
  id : Nat
  email : String
  email_verified : Bool
  first_name : String
  last_name : String
deriving DecidableEq, Repr

/-- Profile row (accounts/models.py, class Profile). -/
structure Profile where
  userId : Nat
  first_name : String
  last_name : String
  phone_number : String
  date_of_birth : Option Int
deriving DecidableEq, Repr

/-- The relational store: one list per table. -/
structure DB where
  trips : List Trip
  regs : List Registration
  users : List User
  profiles : List Profile
deriving DecidableEq, Repr

/-- The model status choices STATUS in trips/models.py. -/
def STATUS : List String := ["pending", "confirmed", "cancelled"]

/-- Python str.strip() on both ends (whitespace). -/
def stripStr (s : String) : String :=
  ⟨((s.data.dropWhile (fun c => c.isWhitespace)).reverse.dropWhile
      (fun c => c.isWhitespace)).reverse⟩

/-- Python str.lower() restricted to the ASCII mapping used by the code. -/
def lowerStr (s : String) : String := ⟨s.data.map Char.toLower⟩

/-- Trip.seats_taken (trips/models.py): count of registrations of the trip. -/
def seats_taken (regs : List Registration) (t : Trip) : Nat :=
  (regs.filter (fun r => r.tripId == t.id)).length

/-- Trip.seats_left (trips/models.py): max(capacity - seats_taken, 0). -/
def seats_left (regs : List Registration) (t : Trip) : Int :=
  max ((t.capacity : Int) - (seats_taken regs t : Int)) 0

/-- Trip.is_full (trips/models.py): seats_left <= 0. The helper _is_full in
trips/views.py evaluates to the same predicate. -/
def is_full (regs : List Registration) (t : Trip) : Bool :=
  decide (seats_left regs t ≤ 0)

/-- Helper _active_trip (trips/views.py): filter(is_active=True),
order_by -date, first, i.e. the active trip with the greatest date
(first stored one on ties). -/
def _active_trip (trips : List Trip) : Option Trip :=
  match trips.filter (fun t => t.is_active) with
  | [] => none
  | t :: ts => some (ts.foldl (fun best c => if best.date < c.date then c else best) t)

/-- Validated data of RegistrationForm (trips/forms.py): first_name,
last_name, phone, dob, park_choice after the clean methods ran. -/
structure RegForm where
  first_name : String
  last_name : String
  phone : String
  dob : Int
  park_choice : String
deriving DecidableEq, Repr

/-- Outcome of the register view, one constructor per return path
(trips/views.py, register). seatsExhausted covers both capacity
rejections (the pre-check and the commit-time re-check). -/
inductive RegisterOutcome where
  | notVerified
  | noActiveTrip
  | alreadyRegistered
  | seatsExhausted
  | admitted
deriving DecidableEq, Repr

/-- Autoincrement primary key for a new row. -/
def nextPk (ids : List Nat) : Nat := ids.foldl max 0 + 1

/-- The Registration row built in the register view POST branch:
form.save(commit=False) composes full_name from first and last name
(trips/forms.py, RegistrationForm.save), the view sets trip, user and
email_used, and the model defaults give status pending and both boarding
flags False. -/
def mkRegistration (db : DB) (trip : Trip) (u : User) (form : RegForm) : Registration :=
  { id := nextPk (db.regs.map (fun r => r.id))
    tripId := trip.id
    userId := u.id
    full_name := stripStr (form.first_name ++ " " ++ form.last_name)
    phone := form.phone
    dob := form.dob
    park_choice := form.park_choice
    status := "pending"
    email_used := u.email
    boarded_outbound := false
    boarded_return := false }

/-- UPDATE of a single user row by primary key. -/
def saveUser (users : List User) (u : User) : List User :=
  users.map (fun x => if x.id == u.id then u else x)

/-- UPDATE of a single profile row by its user key. -/
def saveProfile (ps : List Profile) (p : Profile) : List Profile :=
  ps.map (fun x => if x.userId == p.userId then p else x)

/-- Lookup request.user.profile. -/
def findProfile (ps : List Profile) (uid : Nat) : Option Profile :=
  ps.find? (fun p => p.userId == uid)

/-- The profile update in the register view (trips/views.py lines 194 to
205): first and last name are set to the stripped form values, the phone is
set when the cleaned phone is truthy, and the date of birth is set (the
cleaned dob is always truthy because the form requires it). -/
def updateProfileFromForm (p : Profile) (fn ln ph : String) (dob : Int) : Profile :=
  { p with
    first_name := fn
    last_name := ln
    phone_number := if ph != "" then ph else p.phone_number
    date_of_birth := some dob }

/-- The commit block of the register view POST branch (trips/views.py lines
170 to 205): insert the registration row, mirror the form names onto the
user row, and update the profile prefill fields when a profile exists. -/
def registerCommit (db : DB) (u : User) (form : RegForm) (trip : Trip) :
    RegisterOutcome × DB :=
  let reg := mkRegistration db trip u form
  let fn := stripStr form.first_name
  let ln := stripStr form.last_name
  let users2 := saveUser db.users { u with first_name := fn, last_name := ln }
  let profiles2 :=
    match findProfile db.profiles u.id with
    | some p => saveProfile db.profiles (updateProfileFromForm p fn ln form.phone form.dob)
    | none => db.profiles
  (RegisterOutcome.admitted,
    { db with regs := reg :: db.regs, users := users2, profiles := profiles2 })

/-- The register view (trips/views.py, register), sequential semantics of
one request carrying a valid form. The guards appear in source order:
verified email, active trip, duplicate registration, capacity pre-check,
then the commit-time capacity re-check after trip.refresh_from_db(), then
the commit block. -/
def register (db : DB) (u : User) (form : RegForm) : RegisterOutcome × DB :=
  if !u.email_verified then (RegisterOutcome.notVerified, db)
  else
    match _active_trip db.trips with
    | none => (RegisterOutcome.noActiveTrip, db)
    | some trip =>
      if db.regs.any (fun r => r.tripId == trip.id && r.userId == u.id) then
        (RegisterOutcome.alreadyRegistered, db)
      else if is_full db.regs trip then
        (RegisterOutcome.seatsExhausted, db)
      else if is_full db.regs trip then
        (RegisterOutcome.seatsExhausted, db)
      else
        registerCommit db u form trip

/-- A sequence of register requests applied one after the other. -/
def applyRegisterOps (db : DB) (ops : List (User × RegForm)) : DB :=
  ops.foldl (fun d p => (register d p.1 p.2).2) db

/-- A statement of a view body as it relates to transactions: either a
plain statement that commits on its own (Django autocommit mode) or a
transaction.atomic block grouping its body into one transaction. -/
inductive PathItem (α : Type) where
  | plain (s : α)
  | atomicBlock (body : List α)
deriving DecidableEq, Repr

/-- Whether a statement runs inside some transaction.atomic block of the
path. -/
def stmtInAtomic {α : Type} [BEq α] (path : List (PathItem α)) (s : α) : Bool :=
  path.any (fun item =>
    match item with
    | PathItem.plain _ => false
    | PathItem.atomicBlock body => body.contains s)

/-- Whether the path contains any transaction.atomic block at all. -/
def hasAtomicBlock {α : Type} (path : List (PathItem α)) : Bool :=
  path.any (fun item =>
    match item with
    | PathItem.plain _ => false
    | PathItem.atomicBlock _ => true)

/-- The statements of the register view POST branch once the form is valid
(trips/views.py lines 161 to 244). -/
inductive RegisterStmt where
  | refreshTripFromDb
  | recheckCapacity
  | saveRegistrationRow
  | saveUserNames
  | saveProfileRow
  | sendConfirmationEmails
deriving DecidableEq, BEq, Repr

/-- Statement order of the register view POST branch (trips/views.py lines
161 to 244): trip.refresh_from_db() and the capacity re-check at lines 165
to 168 run before the transaction.atomic() block opened at line 170, which
contains the registration insert and the user and profile updates; the
confirmation emails follow after the block. -/
def registerCommitPath : List (PathItem RegisterStmt) :=
  [ PathItem.plain RegisterStmt.refreshTripFromDb
  , PathItem.plain RegisterStmt.recheckCapacity
  , PathItem.atomicBlock
      [ RegisterStmt.saveRegistrationRow
      , RegisterStmt.saveUserNames
      , RegisterStmt.saveProfileRow ]
  , PathItem.plain RegisterStmt.sendConfirmationEmails ]

/-- The statements of trip_set_active and of the trip_create POST branch
(trips/views.py). -/
inductive TripStmt where
  | fetchTrip
  | saveTripActive
  | demoteOtherTrips
deriving DecidableEq, BEq, Repr

/-- Statement order of trip_set_active (trips/views.py lines 359 to 365):
trip.save() and the exclude-update that demotes the other trips are two
separate autocommitted statements; there is no transaction.atomic block. -/
def setActivePath : List (PathItem TripStmt) :=
  [ PathItem.plain TripStmt.fetchTrip
  , PathItem.plain TripStmt.saveTripActive
  , PathItem.plain TripStmt.demoteOtherTrips ]

/-- Statement order of the trip_create POST branch when the new trip is
active (trips/views.py lines 343 to 351): form.save() commits, then the
demote update runs as a separate unguarded statement. trip_edit (lines 486
to 494) has the same shape. -/
def tripCreateActivePath : List (PathItem TripStmt) :=
  [ PathItem.plain TripStmt.saveTripActive
  , PathItem.plain TripStmt.demoteOtherTrips ]

/-- Count of active trips in the catalog. -/
def countActive (trips : List Trip) : Nat :=
  (trips.filter (fun t => t.is_active)).length

/-- Trip.objects.exclude(pk=pk).update(is_active=False). -/
def demote_others (trips : List Trip) (pk : Nat) : List Trip :=
  trips.map (fun t => if t.id == pk then t else { t with is_active := false })

/-- Committed catalog state midway through trip_set_active: after
trip.save() at line 362 and before the demote update at line 363 (each of
the two statements commits on its own). -/
def trip_set_active_mid (trips : List Trip) (pk : Nat) : List Trip :=
  trips.map (fun t => if t.id == pk then { t with is_active := true } else t)

/-- trip_set_active (trips/views.py lines 357 to 365): fetch the trip by
primary key (404 leaves the catalog unchanged), save it with is_active
True, then demote all other trips. -/
def trip_set_active (trips : List Trip) (pk : Nat) : List Trip :=
  if trips.any (fun t => t.id == pk) then
    demote_others (trip_set_active_mid trips pk) pk
  else trips

/-- Validated data of TripForm (trips/forms.py): the fields of the create
and edit forms that the embedded logic reads. -/
structure TripData where
  name : String
  date : Int
  capacity : Nat
  is_active : Bool
deriving DecidableEq, Repr

/-- The row inserted by form.save() in trip_create, with an autoincrement
primary key. -/
def mkTrip (trips : List Trip) (d : TripData) : Trip :=
  { id := nextPk (trips.map (fun x => x.id))
    name := d.name
    date := d.date
    capacity := d.capacity
    is_active := d.is_active }

/-- Committed catalog state midway through trip_create with an active new
trip: after form.save() at line 346 and before the demote update at line
349. -/
def trip_create_mid (trips : List Trip) (d : TripData) : List Trip :=
  trips ++ [mkTrip trips d]

/-- trip_create POST branch (trips/views.py lines 342 to 351): save the new
trip, then demote the others when the new trip is active. -/
def trip_create (trips : List Trip) (d : TripData) : List Trip :=
  if (mkTrip trips d).is_active then
    demote_others (trip_create_mid trips d) (mkTrip trips d).id
  else trip_create_mid trips d

/-- Application of the TripForm fields onto the edited row. -/
def editRow (pk : Nat) (d : TripData) (t : Trip) : Trip :=
  if t.id == pk then
    { t with name := d.name, date := d.date, capacity := d.capacity,
             is_active := d.is_active }
  else t

/-- trip_edit POST branch (trips/views.py lines 482 to 494): fetch by
primary key (404 leaves the catalog unchanged), save the form fields onto
the trip, then demote the others when the updated trip is active. -/
def trip_edit (trips : List Trip) (pk : Nat) (d : TripData) : List Trip :=
  if trips.any (fun t => t.id == pk) then
    if d.is_active then demote_others (trips.map (editRow pk d)) pk
    else trips.map (editRow pk d)
  else trips

/-- The staff operations that can change the active flag. -/
inductive TripOp where
  | create (d : TripData)
  | edit (pk : Nat) (d : TripData)
  | setActive (pk : Nat)
deriving DecidableEq, Repr

def applyTripOp (trips : List Trip) : TripOp → List Trip
  | TripOp.create d => trip_create trips d
  | TripOp.edit pk d => trip_edit trips pk d
  | TripOp.setActive pk => trip_set_active trips pk

def applyTripOps (trips : List Trip) (ops : List TripOp) : List Trip :=
  ops.foldl applyTripOp trips

/-- Result of reg.save() under the unique_together (trip, user) constraint
(trips/models.py, Registration.Meta): inserting a second row for the same
pair raises an integrity error. -/
inductive SaveResult where
  | ok (db : DB)
  | integrityError
deriving DecidableEq, Repr

def saveRegistrationRow (db : DB) (r : Registration) : SaveResult :=
  if db.regs.any (fun x => x.tripId == r.tripId && x.userId == r.userId) then
    SaveResult.integrityError
  else SaveResult.ok { db with regs := r :: db.regs }

/-- Result of the atomic commit block of the register view as seen by the
caller. -/
inductive CommitResult where
  | committed (db : DB)
  | uncaughtIntegrityError
  | alreadyRegisteredResponse
deriving DecidableEq, Repr

/-- The transaction.atomic block around reg.save() in the register view
(trips/views.py lines 170 to 205): the source has no try/except around the
save, so an integrity error from the unique (trip, user) constraint rolls
the block back and propagates out of the view; no branch produces the
already-registered response from it. -/
def registerCommitBlock (db : DB) (r : Registration) : CommitResult :=
  match saveRegistrationRow db r with
  | SaveResult.ok db2 => CommitResult.committed db2
  | SaveResult.integrityError => CommitResult.uncaughtIntegrityError

/-- The two boarding legs of the headcount view; out below stands for the
outbound mode string and ret for the return mode string. -/
inductive Leg where
  | out
  | ret
deriving DecidableEq, BEq, Repr

/-- request.POST.get(key). -/
def postGet (post : List (String × String)) (key : String) : Option String :=
  (post.find? (fun p => p.1 == key)).map (fun p => p.2)

/-- Checkbox name of a row in the headcount form (trips/views.py line 633). -/
def headcountKey (mode : Leg) (r : Registration) : String :=
  (if mode == Leg.out then "out" else "ret") ++ "-" ++ toString r.id

/-- new_val of a row (trips/views.py line 634): request.POST.get(key) equal
to the string on. -/
def headcountNewVal (mode : Leg) (post : List (String × String)) (r : Registration) : Bool :=
  postGet post (headcountKey mode r) == some "on"

/-- The stored boarding flag of the given leg. -/
def boardedFlag (mode : Leg) (r : Registration) : Bool :=
  match mode with
  | Leg.out => r.boarded_outbound
  | Leg.ret => r.boarded_return

/-- The live email of the user a registration row points at; empty when the
row is dangling. -/
def userEmailOf (users : List User) (r : Registration) : String :=
  match users.find? (fun u => u.id == r.userId) with
  | some u => u.email
  | none => ""

/-- One iteration of the headcount POST loop for one visible row
(trips/views.py lines 632 to 685): returns the updated row and the number
of boarding emails sent for it. The send runs only when the stored flag was
False, the posted value is True, and r.user.email is truthy; send failures
are swallowed by fail_silently and the bare except. -/
def headcountRow (mode : Leg) (post : List (String × String)) (users : List User)
    (r : Registration) : Registration × Nat :=
  let newVal := headcountNewVal mode post r
  match mode with
  | Leg.out =>
    let sendEmail := (!r.boarded_outbound) && newVal
    if newVal != r.boarded_outbound then
      ({ r with boarded_outbound := newVal },
        if sendEmail && (userEmailOf users r != "") then 1 else 0)
    else (r, 0)
  | Leg.ret =>
    let sendEmail := (!r.boarded_return) && newVal
    if newVal != r.boarded_return then
      ({ r with boarded_return := newVal },
        if sendEmail && (userEmailOf users r != "") then 1 else 0)
    else (r, 0)

/-- The whole headcount POST loop: every visible row is processed
independently by headcountRow. -/
def headcountApply (mode : Leg) (post : List (String × String)) (users : List User)
    (rows : List Registration) : List (Registration × Nat) :=
  rows.map (headcountRow mode post users)

/-- Base headcount queryset (trips/views.py lines 588 to 592): rows of the
trip whose status is pending or paid. -/
def headcountBase (tripId : Nat) (regs : List Registration) : List Registration :=
  regs.filter (fun r => r.tripId == tripId && (r.status == "pending" || r.status == "paid"))

/-- icontains: case-insensitive substring test. -/
def icontains (hay needle : String) : Bool :=
  decide (List.IsInfix (lowerStr needle).data (lowerStr hay).data)

/-- Search filter of the headcount view (trips/views.py lines 595 to 600):
substring match on full_name, the live user email, or phone. -/
def headcountSearch (users : List User) (q : String) (r : Registration) : Bool :=
  icontains r.full_name q || icontains (userEmailOf users r) q || icontains r.phone q

/-- The only-unchecked filter (trips/views.py lines 603 to 607). The source
passes one conditional expression as the value of the boarded_outbound
keyword: filter(boarded_outbound=False if mode == "out" else
Q(boarded_return=False)). In out mode this is boarded_outbound=False; in
ret mode the value is the Q object, which the ORM compiles as a boolean
expression, so the filter keeps the rows whose boarded_outbound equals the
truth value of the condition boarded_return equal to False. -/
def onlyUncheckedFilter (mode : Leg) (regs : List Registration) : List Registration :=
  match mode with
  | Leg.out => regs.filter (fun r => r.boarded_outbound == false)
  | Leg.ret => regs.filter (fun r => r.boarded_outbound == !r.boarded_return)

/-- Lexicographic comparison of char lists by code point: the text
collation behind order_by full_name. -/
def lexLe : List Char → List Char → Bool
  | [], _ => true
  | _ :: _, [] => false
  | a :: as, b :: bs =>
    if a.toNat < b.toNat then true
    else if b.toNat < a.toNat then false
    else lexLe as bs

/-- Ascending comparison of two rows by full_name. -/
def nameLe (a b : Registration) : Bool := lexLe a.full_name.data b.full_name.data

/-- Stable insertion into an already sorted list. -/
def insertSorted (le : Registration → Registration → Bool) (r : Registration) :
    List Registration → List Registration
  | [] => [r]
  | x :: xs => if le r x then r :: x :: xs else x :: insertSorted le r xs

/-- Stable insertion sort: the model of an ORDER BY clause. -/
def sortList (le : Registration → Registration → Bool)
    (regs : List Registration) : List Registration :=
  regs.foldr (insertSorted le) []

/-- order_by on full_name: ascending, or descending when order is the
string name_desc (trips/views.py line 609). -/
def sortRows (order : String) (regs : List Registration) : List Registration :=
  if order == "name_desc" then sortList (fun a b => nameLe b a) regs
  else sortList nameLe regs

/-- The visible headcount rows (trips/views.py lines 588 to 610): base
queryset, search filter when q is nonempty, only-unchecked filter when
requested, then the name sort. On POST the update loop runs over exactly
this list. -/
def headcountRows (tripId : Nat) (users : List User) (regs : List Registration)
    (mode : Leg) (q : String) (order : String) (only : String) : List Registration :=
  let base := headcountBase tripId regs
  let searched := if q != "" then base.filter (headcountSearch users q) else base
  let filtered := if only == "unchecked" then onlyUncheckedFilter mode searched else searched
  sortRows order filtered

/-- The paid stat of the organizer dashboard (trips/views.py lines 304 to
306): count of rows of the trip whose status equals the string paid. -/
def dashboard_paid (tripId : Nat) (regs : List Registration) : Nat :=
  ((regs.filter (fun r => r.tripId == tripId)).filter (fun r => r.status == "paid")).length

/-- The update_email action of resend_verification (accounts/views.py lines
129 to 144): normalize the address, reject when another user already holds
it, otherwise store it and clear email_verified. -/
def update_email (db : DB) (uid : Nat) (newEmail : String) : DB :=
  let e := lowerStr (stripStr newEmail)
  if db.users.any (fun x => lowerStr x.email == e && x.id != uid) then db
  else
    { db with users := db.users.map (fun x =>
        if x.id == uid then { x with email := e, email_verified := false } else x) }

/-- The success path of verify_email (accounts/views.py lines 85 to 92):
set email_verified on the user. -/
def verify_email_op (db : DB) (uid : Nat) : DB :=
  { db with users := db.users.map (fun x =>
      if x.id == uid then { x with email_verified := true } else x) }

/-- The operations that write the user account or profile tables: a
register request (whose commit block also updates the user and profile
prefill fields), an email change, and an email verification. The code has
no separate profile-edit view; profile rows are written only inside
register. -/
inductive AccountOp where
  | registerOp (u : User) (form : RegForm)
  | updateEmailOp (uid : Nat) (newEmail : String)
  | verifyEmailOp (uid : Nat)
deriving DecidableEq, Repr

def applyAccountOp (db : DB) : AccountOp → DB
  | AccountOp.registerOp u form => (register db u form).2
  | AccountOp.updateEmailOp uid e => update_email db uid e
  | AccountOp.verifyEmailOp uid => verify_email_op db uid

def applyAccountOps (db : DB) (ops : List AccountOp) : DB :=
  ops.foldl applyAccountOp db

/-- Concrete trip with one seat, used by the closed evaluation theorems. -/
def tripFull : Trip :=
  { id := 1, name := "Imagica", date := 5, capacity := 1, is_active := true }

/-- Concrete active trip with spare capacity. -/
def tripA : Trip :=
  { id := 1, name := "Imagica", date := 5, capacity := 50, is_active := true }

/-- Concrete inactive trip. -/
def tripB : Trip :=
  { id := 2, name := "Beach", date := 3, capacity := 50, is_active := false }

/-- Catalog satisfying the at-most-one-active invariant. -/
def catalogAB : List Trip := [tripA, tripB]

/-- Form data of a new active trip. -/
def dActive : TripData := { name := "Hills", date := 9, capacity := 40, is_active := true }

def userOne : User :=
  { id := 1, email := "a@x.com", email_verified := true, first_name := "Al", last_name := "Ax" }

def userTwo : User :=
  { id := 2, email := "b@x.com", email_verified := true, first_name := "Bo", last_name := "Bx" }

/-- Verified user whose stored email is the empty string. -/
def userNoEmail : User :=
  { id := 3, email := "", email_verified := true, first_name := "Ce", last_name := "Cx" }

/-- User who has not verified the email address. -/
def userUnv : User :=
  { id := 4, email := "d@x.com", email_verified := false, first_name := "Du", last_name := "Dx" }

def formOne : RegForm :=
  { first_name := "Al", last_name := "Ax", phone := "1234567890", dob := 100, park_choice := "theme" }

def formTwo : RegForm :=
  { first_name := "Bo", last_name := "Bx", phone := "1234567891", dob := 101, park_choice := "water" }

def regOne : Registration :=
  { id := 1, tripId := 1, userId := 1, full_name := "Al Ax", phone := "1234567890",
    dob := 100, park_choice := "theme", status := "pending", email_used := "a@x.com",
    boarded_outbound := false, boarded_return := false }

/-- One-seat trip, nobody registered yet. -/
def dbEmptySeat : DB :=
  { trips := [tripFull], regs := [], users := [userOne, userTwo], profiles := [] }

/-- One-seat trip with its seat taken. -/
def dbFull : DB :=
  { trips := [tripFull], regs := [regOne], users := [userOne, userTwo], profiles := [] }

/-- The row a concurrent request committed for the same (trip, user) pair
between the duplicate pre-check of the loser and its reg.save(). -/
def regRacer : Registration := regOne

/-- Store state the losing request sees at save time. -/
def dbRaceLost : DB := { dbEmptySeat with regs := [regRacer] }

/-- The duplicate row the losing request tries to insert. -/
def regDupNew : Registration := { regOne with id := 2 }

/-- Registration of the user whose email is empty. -/
def regNE : Registration := { regOne with id := 7, userId := 3 }

def usersNE : List User := [userNoEmail]

/-- POST body checking the outbound box of row 7. -/
def postOn7 : List (String × String) := [("out-7", "on")]

/-- POST body checking the outbound box of row 1. -/
def postOn1 : List (String × String) := [("out-1", "on")]

/-- Row not yet boarded for either leg. -/
def regR00 : Registration := { regOne with id := 10, full_name := "Alpha" }

/-- Row of a second user already boarded for the return leg only. -/
def regR01 : Registration :=
  { regOne with id := 11, full_name := "Beta", userId := 2, boarded_return := true }

def usersAB : List User := [userOne, userTwo]

/-- Row with status confirmed. -/
def regConf : Registration :=
  { regOne with id := 12, full_name := "Gamma", userId := 2, status := "confirmed" }

/-- Rows whose statuses all come from the model STATUS choices. -/
def regsMix : List Registration := [regR00, regConf]

/-- C8. A user with email_verified False is rejected with NOT_VERIFIED
before any other check, no registration row is created, and no other state
is modified: for every store state and form, register returns the
notVerified outcome and the store unchanged. -/
theorem register_rejects_unverified (db : DB) (u : User) (form : RegForm)
    (h : u.email_verified = false) :
    register db u form = (RegisterOutcome.notVerified, db) := by
  simp [register, h]

theorem register_rejects_unverified_witness :
    userUnv.email_verified = false ∧
    register dbEmptySeat userUnv formTwo = (RegisterOutcome.notVerified, dbEmptySeat) :=
  ⟨by decide, register_rejects_unverified dbEmptySeat userUnv formTwo (by decide)⟩

/-- C2. The claim that the commit-time capacity re-check runs inside the
same atomic transaction as the registration insert is false: in the source
the re-check (lines 165 to 168) precedes the transaction.atomic() block
(line 170) that inserts the row, so it is not covered by the transaction;
consequently two requests can both pass the re-check against the same
committed one-seat state and then commit their atomic blocks one after the
other, reaching two registrations on a capacity-one trip. -/
theorem register_recheck_outside_atomic :
    stmtInAtomic registerCommitPath RegisterStmt.recheckCapacity = false
    ∧ stmtInAtomic registerCommitPath RegisterStmt.saveRegistrationRow = true
    ∧ is_full dbEmptySeat.regs tripFull = false
    ∧ seats_taken ((registerCommit ((registerCommit dbEmptySeat userOne formOne
          tripFull).2) userTwo formTwo tripFull).2).regs tripFull = 2
    ∧ tripFull.capacity = 1 := by decide

/-- C4. The claim that activation and demotion happen in one atomic unit is
false in the source: trip_set_active saves the trip and demotes the others
in two separate autocommitted statements with no transaction.atomic block
(and trip_create and trip_edit share that shape), so between the two
statements a committed catalog state with two active trips is observable. -/
theorem set_active_demotion_not_atomic :
    hasAtomicBlock setActivePath = false
    ∧ hasAtomicBlock tripCreateActivePath = false
    ∧ countActive catalogAB = 1
    ∧ countActive (trip_set_active_mid catalogAB 2) = 2
    ∧ countActive (trip_create_mid [tripA] dActive) = 2
    ∧ countActive (trip_set_active catalogAB 2) = 1 := by decide

/-- C5. The claim that a unique-constraint violation on (trip, user) is
caught and reported as ALREADY_REGISTERED is false in the source: the
duplicate pre-check passes on the state without the row, a concurrent
insert wins the race, and reg.save() then raises an integrity error that no
try/except translates, so the raw storage error escapes the view instead of
an already-registered response. -/
theorem unique_violation_not_translated :
    dbEmptySeat.regs.any (fun r => r.tripId == tripFull.id && r.userId == userOne.id) = false
    ∧ saveRegistrationRow dbRaceLost regDupNew = SaveResult.integrityError
    ∧ registerCommitBlock dbRaceLost regDupNew = CommitResult.uncaughtIntegrityError
    ∧ registerCommitBlock dbRaceLost regDupNew ≠ CommitResult.alreadyRegisteredResponse := by
  decide

/-- C9. The claim that the only-unchecked filter in return mode shows
exactly the rows with boarded_return False is false in the source: the
conditional expression passes the Q object as the value compared with
boarded_outbound, so a row not yet boarded for return (and not boarded
outbound) is hidden while a row already boarded for return is shown; the
outbound mode behaves as claimed. -/
theorem only_unchecked_ret_filter_wrong :
    (regR00.boarded_return = false
      ∧ regR00 ∉ headcountRows 1 usersAB [regR00, regR01] Leg.ret "" "name_asc" "unchecked")
    ∧ (regR01.boarded_return = true
      ∧ regR01 ∈ headcountRows 1 usersAB [regR00, regR01] Leg.ret "" "name_asc" "unchecked")
    ∧ headcountRows 1 usersAB [regR00, regR01] Leg.out "" "name_asc" "unchecked"
        = [regR00, regR01] := by decide

theorem pickLatest_mem (t : Trip) (ts : List Trip) :
    ts.foldl (fun best c => if best.date < c.date then c else best) t ∈ t :: ts := by
  induction ts generalizing t with
  | nil => simp
  | cons c cs ih =>
    simp only [List.foldl_cons]
    by_cases hd : t.date < c.date
    · simp only [if_pos hd]
      rcases List.mem_cons.mp (ih c) with h1 | h1
      · simp [h1]
      · simp [h1]
    · simp only [if_neg hd]
      rcases List.mem_cons.mp (ih t) with h1 | h1
      · simp [h1]
      · simp [h1]

theorem _active_trip_mem {trips : List Trip} {t : Trip}
    (h : _active_trip trips = some t) : t ∈ trips := by
  unfold _active_trip at h
  rcases hf : trips.filter (fun t => t.is_active) with _ | ⟨t0, ts⟩ <;> rw [hf] at h
  · exact absurd h (by simp)
  · have hmem : t ∈ t0 :: ts := by
      have := pickLatest_mem t0 ts
      simpa [Option.some_inj.mp h] using this
    have : t ∈ trips.filter (fun t => t.is_active) := by rw [hf]; exact hmem
    exact (List.mem_filter.mp this).1

theorem seats_taken_cons (r : Registration) (regs : List Registration) (t : Trip) :
    seats_taken (r :: regs) t =
      (if r.tripId == t.id then 1 else 0) + seats_taken regs t := by
  simp only [seats_taken, List.filter_cons]
  split
  · simp [Nat.add_comm]
  · simp

theorem not_full_lt {regs : List Registration} {t : Trip}
    (h : is_full regs t = false) : seats_taken regs t < t.capacity := by
  simp only [is_full, seats_left, decide_eq_false_iff_not, max_le_iff, le_refl,
    and_true, not_le] at h
  omega

theorem register_trips_eq (db : DB) (u : User) (form : RegForm) :
    ((register db u form).2).trips = db.trips := by
  unfold register
  split
  · rfl
  · split
    · rfl
    · split
      · rfl
      · split
        · rfl
        · rfl

theorem register_regs_cases (db : DB) (u : User) (form : RegForm) :
    ((register db u form).2.regs = db.regs) ∨
    (∃ trip, _active_trip db.trips = some trip ∧ is_full db.regs trip = false ∧
      (register db u form).2.regs = mkRegistration db trip u form :: db.regs) := by
  unfold register
  split
  · left; rfl
  · split
    · left; rfl
    · rename_i trip heq
      split
      · left; rfl
      · split
        · left; rfl
        · rename_i hfull
          right
          exact ⟨trip, heq, by simpa using hfull, rfl⟩

theorem trip_eq_of_id_eq {trips : List Trip}
    (h : (trips.map (fun t => t.id)).Nodup) {t1 t2 : Trip}
    (h1 : t1 ∈ trips) (h2 : t2 ∈ trips) (heq : t1.id = t2.id) : t1 = t2 :=
  List.inj_on_of_nodup_map h h1 h2 heq

theorem register_capacity_step (db : DB) (u : User) (form : RegForm)
    (hids : (db.trips.map (fun t => t.id)).Nodup)
    (hinv : ∀ t ∈ db.trips, seats_taken db.regs t ≤ t.capacity) :
    ∀ t ∈ db.trips, seats_taken ((register db u form).2).regs t ≤ t.capacity := by
  rcases register_regs_cases db u form with h | ⟨trip, hact, hfull, h⟩
  · intro t ht; rw [h]; exact hinv t ht
  · intro t ht
    rw [h, seats_taken_cons]
    have htrip : trip ∈ db.trips := _active_trip_mem hact
    by_cases hid : trip.id = t.id
    · have hteq : trip = t := trip_eq_of_id_eq hids htrip ht hid
      have hlt := not_full_lt hfull
      have hbeq : ((mkRegistration db trip u form).tripId == t.id) = true := by
        simp [mkRegistration, hid]
      rw [hbeq, ← hteq]
      simp only [if_true]
      omega
    · have hbeq : ((mkRegistration db trip u form).tripId == t.id) = false := by
        simp [mkRegistration, hid]
      rw [hbeq]
      simpa using hinv t ht

theorem applyRegisterOps_trips_eq (db : DB) (ops : List (User × RegForm)) :
    (applyRegisterOps db ops).trips = db.trips := by
  induction ops generalizing db with
  | nil => rfl
  | cons op ops ih =>
    have h1 : applyRegisterOps db (op :: ops)
        = applyRegisterOps ((register db op.1 op.2).2) ops := rfl
    rw [h1, ih, register_trips_eq]

/-- C1. For every trip with capacity C, after any sequence of register
requests the count of registrations of the trip never exceeds C (given
distinct trip primary keys and an initial state within capacity), and
whenever seats_left of the active trip is zero, a further request by a
verified user with no existing registration for it is rejected with the
seats-exhausted outcome and leaves the whole store unchanged (no row is
inserted). -/
theorem register_capacity_never_exceeded (db : DB) (ops : List (User × RegForm))
    (hids : (db.trips.map (fun t => t.id)).Nodup)
    (hinv : ∀ t ∈ db.trips, seats_taken db.regs t ≤ t.capacity) :
    (∀ t ∈ (applyRegisterOps db ops).trips,
        seats_taken (applyRegisterOps db ops).regs t ≤ t.capacity)
    ∧ (∀ (u : User) (form : RegForm) (t : Trip),
        u.email_verified = true →
        _active_trip db.trips = some t →
        db.regs.any (fun r => r.tripId == t.id && r.userId == u.id) = false →
        seats_left db.regs t = 0 →
        register db u form = (RegisterOutcome.seatsExhausted, db)) := by
  constructor
  · have main : ∀ (ops : List (User × RegForm)) (db : DB),
        (db.trips.map (fun t => t.id)).Nodup →
        (∀ t ∈ db.trips, seats_taken db.regs t ≤ t.capacity) →
        ∀ t ∈ (applyRegisterOps db ops).trips,
          seats_taken (applyRegisterOps db ops).regs t ≤ t.capacity := by
      intro ops
      induction ops with
      | nil => intro db _ hinv; exact hinv
      | cons op ops ih =>
        intro db hids hinv
        have htr := register_trips_eq db op.1 op.2
        have hstep := register_capacity_step db op.1 op.2 hids hinv
        have h1 : applyRegisterOps db (op :: ops)
            = applyRegisterOps ((register db op.1 op.2).2) ops := rfl
        rw [h1]
        exact ih ((register db op.1 op.2).2) (by rw [htr]; exact hids)
          (by rw [htr]; exact hstep)
    exact main ops db hids hinv
  · intro u form t hv hact hnone hzero
    have hfull : is_full db.regs t = true := by simp [is_full, hzero]
    simp [register, hv, hact, hnone, hfull]

theorem register_capacity_never_exceeded_witness :
    (([tripFull].map (fun t => t.id)).Nodup
      ∧ (∀ t ∈ dbFull.trips, seats_taken dbFull.regs t ≤ t.capacity))
    ∧ (∀ t ∈ (applyRegisterOps dbFull [(userTwo, formTwo)]).trips,
        seats_taken (applyRegisterOps dbFull [(userTwo, formTwo)]).regs t ≤ t.capacity)
    ∧ register dbFull userTwo formTwo = (RegisterOutcome.seatsExhausted, dbFull) := by
  have h := register_capacity_never_exceeded dbFull [(userTwo, formTwo)]
    (by decide) (by decide)
  exact ⟨⟨by decide, by decide⟩, h.1,
    h.2 userTwo formTwo tripFull (by decide) (by decide) (by decide) (by decide)⟩

theorem map_ids_eq (trips : List Trip) (f : Trip → Trip)
    (h : ∀ t, (f t).id = t.id) :
    ((trips.map f).map (fun t => t.id)) = trips.map (fun t => t.id) := by
  rw [List.map_map]
  exact List.map_congr_left (fun a _ => h a)

theorem demote_others_ids (trips : List Trip) (pk : Nat) :
    (demote_others trips pk).map (fun t => t.id) = trips.map (fun t => t.id) := by
  apply map_ids_eq
  intro t
  by_cases h : (t.id == pk) <;> simp [demote_others, h]

theorem set_active_mid_ids (trips : List Trip) (pk : Nat) :
    (trip_set_active_mid trips pk).map (fun t => t.id) = trips.map (fun t => t.id) := by
  apply map_ids_eq
  intro t
  by_cases h : (t.id == pk) <;> simp [trip_set_active_mid, h]

theorem editRow_map_ids (trips : List Trip) (pk : Nat) (d : TripData) :
    (trips.map (editRow pk d)).map (fun t => t.id) = trips.map (fun t => t.id) := by
  apply map_ids_eq
  intro t
  by_cases h : (t.id == pk) <;> simp [editRow, h]

theorem countActive_demote_le (trips : List Trip) (pk : Nat)
    (hids : (trips.map (fun t => t.id)).Nodup) :
    countActive (demote_others trips pk) ≤ 1 := by
  have e1 : countActive (demote_others trips pk)
      = List.countP (fun a => a.id == pk && a.is_active) trips := by
    simp only [countActive, demote_others, ← List.countP_eq_length_filter,
      List.countP_map]
    apply List.countP_congr
    intro a _
    by_cases h : (a.id == pk) <;> simp [Function.comp, h]
  have e2 : List.countP (fun a : Trip => a.id == pk && a.is_active) trips
      ≤ List.countP (fun a : Trip => a.id == pk) trips := by
    apply List.countP_mono_left
    intro a _ h
    rw [Bool.and_eq_true] at h
    exact h.1
  have e3 : List.countP (fun a : Trip => a.id == pk) trips
      = (trips.map (fun t => t.id)).count pk := by
    rw [List.count, List.countP_map]
    rfl
  have e4 := List.nodup_iff_count_le_one.mp hids pk
  omega

theorem countActive_map_le (trips : List Trip) (f : Trip → Trip)
    (h : ∀ t, (f t).is_active = true → t.is_active = true) :
    countActive (trips.map f) ≤ countActive trips := by
  simp only [countActive, ← List.countP_eq_length_filter, List.countP_map]
  exact List.countP_mono_left (fun a _ ha => h a ha)

theorem countActive_append (l1 l2 : List Trip) :
    countActive (l1 ++ l2) = countActive l1 + countActive l2 := by
  simp [countActive, List.filter_append]

theorem self_le_foldl_max (l : List Nat) (a : Nat) : a ≤ l.foldl max a := by
  induction l generalizing a with
  | nil => exact Nat.le_refl a
  | cons b l ih => exact Nat.le_trans (Nat.le_max_left a b) (ih (max a b))

theorem mem_le_foldl_max (l : List Nat) (a x : Nat) (h : x ∈ l) : x ≤ l.foldl max a := by
  induction l generalizing a with
  | nil => cases h
  | cons b l ih =>
    rcases List.mem_cons.mp h with rfl | h2
    · exact Nat.le_trans (Nat.le_max_right a x) (self_le_foldl_max l (max a x))
    · exact ih (max a b) h2

theorem nextPk_not_mem (ids : List Nat) : nextPk ids ∉ ids := by
  intro h
  have hle := mem_le_foldl_max ids 0 (nextPk ids) h
  simp only [nextPk] at hle
  omega

theorem trip_create_mid_ids (trips : List Trip) (d : TripData) :
    (trip_create_mid trips d).map (fun t => t.id)
      = trips.map (fun t => t.id) ++ [nextPk (trips.map (fun t => t.id))] := by
  simp [trip_create_mid, mkTrip]

theorem trip_create_mid_ids_nodup (trips : List Trip) (d : TripData)
    (h : (trips.map (fun t => t.id)).Nodup) :
    ((trip_create_mid trips d).map (fun t => t.id)).Nodup := by
  rw [trip_create_mid_ids]
  refine List.Nodup.append h (List.nodup_singleton _) ?_
  intro x hx hy
  rw [List.mem_singleton] at hy
  exact nextPk_not_mem (trips.map (fun t => t.id)) (hy ▸ hx)

theorem applyTripOp_ids_nodup (trips : List Trip) (op : TripOp)
    (h : (trips.map (fun t => t.id)).Nodup) :
    ((applyTripOp trips op).map (fun t => t.id)).Nodup := by
  cases op with
  | create d =>
    show ((trip_create trips d).map (fun t => t.id)).Nodup
    unfold trip_create
    split
    · rw [demote_others_ids]
      exact trip_create_mid_ids_nodup trips d h
    · exact trip_create_mid_ids_nodup trips d h
  | edit pk d =>
    show ((trip_edit trips pk d).map (fun t => t.id)).Nodup
    unfold trip_edit
    split
    · split
      · rw [demote_others_ids, editRow_map_ids]
        exact h
      · rw [editRow_map_ids]
        exact h
    · exact h
  | setActive pk =>
    show ((trip_set_active trips pk).map (fun t => t.id)).Nodup
    unfold trip_set_active
    split
    · rw [demote_others_ids, set_active_mid_ids]
      exact h
    · exact h

theorem applyTripOp_count (trips : List Trip) (op : TripOp)
    (hids : (trips.map (fun t => t.id)).Nodup)
    (hcount : countActive trips ≤ 1) :
    countActive (applyTripOp trips op) ≤ 1 := by
  cases op with
  | create d =>
    show countActive (trip_create trips d) ≤ 1
    unfold trip_create
    split
    · exact countActive_demote_le _ _ (trip_create_mid_ids_nodup trips d hids)
    · rename_i hact
      rw [trip_create_mid, countActive_append]
      have hz : countActive [mkTrip trips d] = 0 := by
        simp only [countActive, List.filter, List.length_nil]
        rw [Bool.not_eq_true] at hact
        simp [hact]
      omega
  | edit pk d =>
    show countActive (trip_edit trips pk d) ≤ 1
    unfold trip_edit
    split
    · split
      · exact countActive_demote_le _ _ (by rw [editRow_map_ids]; exact hids)
      · rename_i hact
        rw [Bool.not_eq_true] at hact
        have hmono := countActive_map_le trips (editRow pk d) ?_
        · omega
        · intro t ht
          unfold editRow at ht
          by_cases hp : (t.id == pk)
          · rw [if_pos hp] at ht
            simp only at ht
            rw [hact] at ht
            cases ht
          · rw [if_neg hp] at ht
            exact ht
    · exact hcount
  | setActive pk =>
    show countActive (trip_set_active trips pk) ≤ 1
    unfold trip_set_active
    split
    · exact countActive_demote_le _ _ (by rw [set_active_mid_ids]; exact hids)
    · exact hcount

/-- C3. After any sequence of trip create, trip edit, and set_active
operations completes (sequentially, starting from a catalog with distinct
primary keys and at most one active trip), at most one trip in the catalog
has is_active True. -/
theorem at_most_one_active_trip (trips : List Trip) (ops : List TripOp)
    (hids : (trips.map (fun t => t.id)).Nodup)
    (hact : countActive trips ≤ 1) :
    countActive (applyTripOps trips ops) ≤ 1 := by
  have main : ∀ (ops : List TripOp) (trips : List Trip),
      (trips.map (fun t => t.id)).Nodup → countActive trips ≤ 1 →
      countActive (applyTripOps trips ops) ≤ 1 := by
    intro ops
    induction ops with
    | nil => intro trips _ h2; exact h2
    | cons op ops ih =>
      intro trips h1 h2
      have hstep : applyTripOps trips (op :: ops)
          = applyTripOps (applyTripOp trips op) ops := rfl
      rw [hstep]
      exact ih (applyTripOp trips op) (applyTripOp_ids_nodup trips op h1)
        (applyTripOp_count trips op h1 h2)
  exact main ops trips hids hact

theorem at_most_one_active_trip_witness :
    ((catalogAB.map (fun t => t.id)).Nodup ∧ countActive catalogAB ≤ 1)
    ∧ countActive (applyTripOps catalogAB
        [TripOp.create dActive, TripOp.setActive 2,
         TripOp.edit 1 dActive]) ≤ 1 :=
  ⟨⟨by decide, by decide⟩,
    at_most_one_active_trip catalogAB
      [TripOp.create dActive, TripOp.setActive 2, TripOp.edit 1 dActive]
      (by decide) (by decide)⟩

/-- C6 counterexample: the claim that a boarding notification is sent
exactly when the stored flag transitions from False to True fails when the
user of the row has an empty stored email: here the outbound flag of the
row does transition from False to True, yet zero notifications are sent,
because the send is guarded by r.user.email being truthy. -/
theorem boarding_email_skipped_for_empty_email :
    regNE.boarded_outbound = false
    ∧ headcountNewVal Leg.out postOn7 regNE = true
    ∧ ((headcountRow Leg.out postOn7 usersNE regNE).1).boarded_outbound = true
    ∧ (headcountRow Leg.out postOn7 usersNE regNE).2 = 0 := by decide

/-- C6 amended. For every registration row processed by the headcount bulk
update and each leg, a boarding notification is sent for the row exactly
when the stored flag of the selected leg transitions from False to True and
the user of the row has a nonempty email; setting True when already True,
setting False, or leaving the value unchanged sends no notification, at
most one notification is sent per row, the stored flag ends at the posted
value, and the rule is applied row by row inside the bulk request. -/
theorem headcount_notification_iff (mode : Leg) (post : List (String × String))
    (users : List User) (rows : List Registration) (r : Registration)
    (h : r ∈ rows) :
    headcountRow mode post users r ∈ headcountApply mode post users rows
    ∧ boardedFlag mode (headcountRow mode post users r).1
        = headcountNewVal mode post r
    ∧ ((headcountRow mode post users r).2 = 1 ↔
        (boardedFlag mode r = false ∧ headcountNewVal mode post r = true
          ∧ userEmailOf users r ≠ ""))
    ∧ ((headcountRow mode post users r).2 = 0
        ∨ (headcountRow mode post users r).2 = 1) := by
  refine ⟨List.mem_map_of_mem _ h, ?_⟩
  cases mode with
  | out =>
    cases hb : r.boarded_outbound <;> cases hv : headcountNewVal Leg.out post r <;>
      by_cases he : userEmailOf users r = "" <;>
        simp [headcountRow, boardedFlag, hb, hv, he]
  | ret =>
    cases hb : r.boarded_return <;> cases hv : headcountNewVal Leg.ret post r <;>
      by_cases he : userEmailOf users r = "" <;>
        simp [headcountRow, boardedFlag, hb, hv, he]

theorem headcount_notification_iff_witness :
    regOne ∈ [regOne]
    ∧ (headcountRow Leg.out postOn1 [userOne] regOne).2 = 1 := by
  have h := headcount_notification_iff Leg.out postOn1 [userOne] [regOne] regOne
    (by decide)
  exact ⟨by decide, h.2.2.1.mpr (by decide)⟩

/-- C7. Registration snapshot rows are frozen after creation: every
operation that writes the user account or profile tables (a register
request with its prefill updates of user names and profile fields, an email
change, an email verification) only prepends new registration rows and
never rewrites an existing one, so each pre-existing row, snapshot fields
included, survives unchanged in the store. -/
theorem snapshots_frozen (db : DB) (ops : List AccountOp) :
    (∃ newRegs, (applyAccountOps db ops).regs = newRegs ++ db.regs)
    ∧ ∀ r ∈ db.regs, r ∈ (applyAccountOps db ops).regs := by
  have main : ∀ (ops : List AccountOp) (db : DB),
      ∃ newRegs, (applyAccountOps db ops).regs = newRegs ++ db.regs := by
    intro ops
    induction ops with
    | nil => intro db; exact ⟨[], rfl⟩
    | cons op ops ih =>
      intro db
      have hstep : applyAccountOps db (op :: ops)
          = applyAccountOps (applyAccountOp db op) ops := rfl
      rcases ih (applyAccountOp db op) with ⟨nr, hnr⟩
      have hop : ∃ n1, (applyAccountOp db op).regs = n1 ++ db.regs := by
        cases op with
        | registerOp u form =>
          rcases register_regs_cases db u form with h | ⟨trip, _, _, h⟩
          · exact ⟨[], h⟩
          · exact ⟨[mkRegistration db trip u form], h⟩
        | updateEmailOp uid e =>
          refine ⟨[], ?_⟩
          simp only [applyAccountOp, update_email]
          split
          · rfl
          · rfl
        | verifyEmailOp uid => exact ⟨[], rfl⟩
      rcases hop with ⟨n1, h1⟩
      refine ⟨nr ++ n1, ?_⟩
      rw [hstep, hnr, h1, List.append_assoc]
  rcases main ops db with ⟨nr, h⟩
  exact ⟨⟨nr, h⟩, fun r hr => by rw [h]; exact List.mem_append_right nr hr⟩

theorem snapshots_frozen_witness :
    (∃ newRegs, (applyAccountOps dbFull
        [AccountOp.updateEmailOp 1 "new@x.com",
         AccountOp.registerOp userTwo formTwo]).regs = newRegs ++ dbFull.regs)
    ∧ ∀ r ∈ dbFull.regs, r ∈ (applyAccountOps dbFull
        [AccountOp.updateEmailOp 1 "new@x.com",
         AccountOp.registerOp userTwo formTwo]).regs :=
  snapshots_frozen dbFull
    [AccountOp.updateEmailOp 1 "new@x.com", AccountOp.registerOp userTwo formTwo]

theorem mem_insertSorted {le : Registration → Registration → Bool}
    {r x : Registration} {l : List Registration}
    (h : x ∈ insertSorted le r l) : x = r ∨ x ∈ l := by
  induction l with
  | nil =>
    simp only [insertSorted] at h
    exact Or.inl (List.mem_singleton.mp h)
  | cons a as ih =>
    unfold insertSorted at h
    split at h
    · rcases List.mem_cons.mp h with h1 | h1
      · exact Or.inl h1
      · exact Or.inr h1
    · rcases List.mem_cons.mp h with h1 | h1
      · exact Or.inr (by simp [h1])
      · rcases ih h1 with h2 | h2
        · exact Or.inl h2
        · exact Or.inr (by simp [h2])

theorem mem_sortList {le : Registration → Registration → Bool}
    {l : List Registration} {x : Registration}
    (h : x ∈ sortList le l) : x ∈ l := by
  induction l with
  | nil =>
    simp only [sortList, List.foldr_nil] at h
    exact h
  | cons a as ih =>
    simp only [sortList, List.foldr_cons] at h
    rcases mem_insertSorted h with h1 | h1
    · simp [h1]
    · exact List.mem_cons_of_mem a (ih h1)

theorem mem_sortRows {order : String} {l : List Registration} {x : Registration}
    (h : x ∈ sortRows order l) : x ∈ l := by
  unfold sortRows at h
  split at h
  · exact mem_sortList h
  · exact mem_sortList h

theorem mem_headcountRows_base {tripId : Nat} {users : List User}
    {regs : List Registration} {mode : Leg} {q order only : String}
    {r : Registration}
    (h : r ∈ headcountRows tripId users regs mode q order only) :
    r ∈ headcountBase tripId regs := by
  simp only [headcountRows] at h
  have h1 := mem_sortRows h
  have h2 : r ∈ (if q != "" then
      (headcountBase tripId regs).filter (headcountSearch users q)
      else headcountBase tripId regs) := by
    split at h1
    · cases mode with
      | out =>
        simp only [onlyUncheckedFilter] at h1
        exact (List.mem_filter.mp h1).1
      | ret =>
        simp only [onlyUncheckedFilter] at h1
        exact (List.mem_filter.mp h1).1
    · exact h1
  split at h2
  · exact (List.mem_filter.mp h2).1
  · exact h2

/-- C10. A registration whose status is confirmed (a value of the stored
STATUS enumeration) never appears among the headcount rows for any mode,
search, order, and only-unchecked parameters, because the base queryset
keeps only the statuses pending and paid; hence it is never passed to the
boarding update loop and can never receive a boarding notification. And
when every status of the table comes from the STATUS choices, the dashboard
paid count is zero, since paid is not among the choices. -/
theorem confirmed_rows_invisible (tripId : Nat) (users : List User)
    (regs : List Registration) (mode : Leg) (q order only : String)
    (hvalid : ∀ r ∈ regs, r.status ∈ STATUS) :
    (∀ r ∈ headcountRows tripId users regs mode q order only,
        r.status ≠ "confirmed")
    ∧ dashboard_paid tripId regs = 0 := by
  constructor
  · intro r hr hconf
    have hb := mem_headcountRows_base hr
    simp only [headcountBase] at hb
    rw [List.mem_filter] at hb
    have hp := hb.2
    rw [Bool.and_eq_true] at hp
    have hstat := hp.2
    rw [hconf] at hstat
    exact absurd hstat (by decide)
  · simp only [dashboard_paid]
    rw [List.length_eq_zero, List.filter_eq_nil_iff]
    intro a ha hpaid
    have hmem := (List.mem_filter.mp ha).1
    have hs := hvalid a hmem
    rw [beq_iff_eq] at hpaid
    rw [hpaid] at hs
    exact absurd hs (by decide)

theorem confirmed_rows_invisible_witness :
    (∀ r ∈ regsMix, r.status ∈ STATUS)
    ∧ (∀ r ∈ headcountRows 1 usersAB regsMix Leg.out "" "name_asc" "",
        r.status ≠ "confirmed")
    ∧ dashboard_paid 1 regsMix = 0 := by
  have h := confirmed_rows_invisible 1 usersAB regsMix Leg.out "" "name_asc" ""
    (by decide)
  exact ⟨by decide, h.1, h.2⟩

end TripTrack
